import Mathlib

/-!
# Verification of the live-conference-translator audio pipeline

Shallow embedding of the audio utilities, the Gemini live-translation
service (message reconciler, audio buffering, teardown) and the TTS
queue of the repository, with theorems checking the specification's
claims against the embedded code.

Machine floats are modelled by exact rationals; JavaScript `Int16Array`
element conversion (ToInt16: truncation toward zero, then wrap modulo
2^16 into the signed range) is modelled explicitly.
-/

namespace AudioUtils

/-- Truncation of a rational toward zero, as JavaScript does when a
number is stored into an integer-typed array. -/
def ratTrunc (q : ℚ) : ℤ :=
  if 0 ≤ q then ⌊q⌋ else -⌊-q⌋

/-- Wrap an integer modulo 2^16 into the signed 16-bit range, the
second half of JavaScript's ToInt16 conversion. -/
def int16Wrap (n : ℤ) : ℤ :=
  let m := n % 65536
  if 32768 ≤ m then m - 65536 else m

/-- JavaScript's ToInt16: what `int16[i] = v` stores for a number `v`. -/
def jsToInt16 (q : ℚ) : ℤ :=
  int16Wrap (ratTrunc q)

/-- The scaled value computed by `float32ToInt16` (part_006 lines 68-75)
and by the identical inline conversions in the worklet and the
ScriptProcessor path: clamp to [-1,1], then `s < 0 ? s * 0x8000 : s * 0x7FFF`. -/
def asymScaled (x : ℚ) : ℚ :=
  let s := max (-1) (min 1 x)
  if s < 0 then s * 32768 else s * 32767

/-- One sample of `float32ToInt16` (src/unnamed/part_006 lines 68-75). -/
def float32ToInt16One (x : ℚ) : ℤ :=
  jsToInt16 (asymScaled x)

/-- `float32ToInt16` (src/unnamed/part_006 lines 68-75): clamp each
sample to [-1,1], scale asymmetrically, store into an Int16Array. -/
def float32ToInt16 (input : List ℚ) : List ℤ :=
  input.map float32ToInt16One

/-- The scaled value computed by `createBlob` (src/utils/audioUtils.ts
lines 21-33): clamp to [-1,1], then `s * 32768`. -/
def createBlobScaled (x : ℚ) : ℚ :=
  let s := max (-1) (min 1 x)
  s * 32768

/-- One sample of the PCM data produced by `createBlob`
(src/utils/audioUtils.ts lines 21-33). -/
def createBlobPcmOne (x : ℚ) : ℤ :=
  jsToInt16 (createBlobScaled x)

/-- The Int16 PCM samples produced by `createBlob`
(src/utils/audioUtils.ts lines 21-33), before base64 encoding. -/
def createBlobPcm (data : List ℚ) : List ℤ :=
  data.map createBlobPcmOne

/-- JavaScript `Math.round`: floor(x + 1/2), ties toward +infinity. -/
def jsRound (q : ℚ) : ℤ := ⌊q + 1 / 2⌋

/-- `resampleTo16k` (src/utils/audioUtils.ts lines 39-56, identical in
src/unnamed/part_006 lines 43-63 and src/services/liveService.ts):
identity when the input rate is already 16000, otherwise linear
interpolation with `newLength = Math.round(input.length / sampleRatio)`. -/
def resampleTo16k (input : List ℚ) (inputSampleRate : ℚ) : List ℚ :=
  if inputSampleRate = 16000 then input
  else
    let sampleRatio := inputSampleRate / 16000
    let newLength := (jsRound ((input.length : ℚ) / sampleRatio)).toNat
    (List.range newLength).map fun (i : ℕ) =>
      let sourceIndex : ℚ := (i : ℚ) * sampleRatio
      let index0 : ℤ := ⌊sourceIndex⌋
      let index1 : ℤ := min (index0 + 1) ((input.length : ℤ) - 1)
      let weight : ℚ := sourceIndex - (index0 : ℚ)
      input.getD index0.toNat 0 * (1 - weight) + input.getD index1.toNat 0 * weight

end AudioUtils

namespace AudioUtils

lemma int16Wrap_eq_self {n : ℤ} (h1 : -32768 ≤ n) (h2 : n ≤ 32767) : int16Wrap n = n := by
  simp only [int16Wrap]
  omega

lemma asymScaled_bounds (x : ℚ) : -32768 ≤ asymScaled x ∧ asymScaled x ≤ 32767 := by
  unfold asymScaled
  have hlo : (-1 : ℚ) ≤ max (-1) (min 1 x) := le_max_left _ _
  have hhi : max (-1) (min 1 x) ≤ 1 := max_le (by norm_num) (min_le_left _ _)
  set s := max (-1 : ℚ) (min 1 x) with hs
  by_cases h : s < 0
  · rw [if_pos h]
    constructor <;> nlinarith
  · rw [if_neg h]
    push_neg at h
    constructor <;> nlinarith

lemma ratTrunc_bounds {q : ℚ} (h1 : -32768 ≤ q) (h2 : q ≤ 32767) :
    -32768 ≤ ratTrunc q ∧ ratTrunc q ≤ 32767 := by
  unfold ratTrunc
  by_cases h : 0 ≤ q
  · rw [if_pos h]
    have ha : (0 : ℤ) ≤ ⌊q⌋ := Int.floor_nonneg.mpr h
    have hb : ⌊q⌋ ≤ 32767 := by
      rw [Int.floor_le_iff]
      push_cast
      linarith
    omega
  · rw [if_neg h]
    push_neg at h
    have ha : (0 : ℤ) ≤ ⌊-q⌋ := Int.floor_nonneg.mpr (by linarith)
    have hb : ⌊-q⌋ ≤ 32768 := by
      rw [Int.floor_le_iff]
      push_cast
      linarith
    omega

/-- Interpolating with a weight in [0,1] stays between the two endpoints. -/
lemma interp_between (a b w : ℚ) (h0 : 0 ≤ w) (h1 : w ≤ 1) :
    min a b ≤ a * (1 - w) + b * w ∧ a * (1 - w) + b * w ≤ max a b := by
  rcases le_total a b with hab | hab
  · rw [min_eq_left hab, max_eq_right hab]
    constructor <;> nlinarith
  · rw [min_eq_right hab, max_eq_left hab]
    constructor <;> nlinarith

/-- C4: the claim says converting [-1.5, -1.0, 0.0, 1.0, 1.5] to signed 16-bit
PCM yields [-32768, -32768, 0, 32767, 32767] in every Float32-to-Int16
conversion of the program, the clamp preventing any wraparound.  This holds for
`float32ToInt16` (and the identical worklet/ScriptProcessor conversions), where
the stored value always equals the truncated scaled value (no wraparound ever);
but `createBlob` computes `s * 32768`, which for the samples 1.0 and 1.5 gives
32768 and wraps to -32768 in the Int16Array, contradicting the claim and the
function's own comment that the clamp avoids wrapping. -/
theorem C4_pcm_clamp_createBlob_wraps :
    float32ToInt16 [-(3/2), -1, 0, 1, 3/2] = [-32768, -32768, 0, 32767, 32767] ∧
    (∀ x : ℚ, float32ToInt16One x = ratTrunc (asymScaled x)) ∧
    createBlobPcm [-(3/2), -1, 0, 1, 3/2] = [-32768, -32768, 0, -32768, -32768] := by
  refine ⟨?_, ?_, ?_⟩
  · simp only [float32ToInt16, float32ToInt16One, asymScaled, jsToInt16, ratTrunc, int16Wrap,
      List.map]
    norm_num [min_def, max_def]
  · intro x
    have hs := asymScaled_bounds x
    have ht := ratTrunc_bounds hs.1 hs.2
    exact int16Wrap_eq_self ht.1 ht.2
  · simp only [createBlobPcm, createBlobPcmOne, createBlobScaled, jsToInt16, ratTrunc, int16Wrap,
      List.map]
    norm_num [min_def, max_def]

lemma resampleTo16k_length (input : List ℚ) (R : ℚ) (h : R ≠ 16000) :
    (resampleTo16k input R).length = (jsRound ((input.length : ℚ) * 16000 / R)).toNat := by
  rw [resampleTo16k, if_neg h, List.length_map, List.length_range, div_div_eq_mul_div]

/-- C8: resampling at 16000 Hz is the identity; for any other positive rate R
the output length is exactly `Math.round(len * 16000 / R)` (hence within ±1 of
it, as claimed), and every output sample lies between the two nearest input
samples (indices `floor(i * R/16000)` and its successor capped at the last
index), being their linear interpolation. -/
theorem C8_resample_identity_length_interp (input : List ℚ) (R : ℚ) (hR : 0 < R) :
    resampleTo16k input 16000 = input ∧
    (R ≠ 16000 →
      ((resampleTo16k input R).length : ℤ) = jsRound ((input.length : ℚ) * 16000 / R) ∧
      ∀ i < (resampleTo16k input R).length,
        min (input.getD (⌊(i : ℚ) * (R / 16000)⌋).toNat 0)
            (input.getD (min (⌊(i : ℚ) * (R / 16000)⌋ + 1) ((input.length : ℤ) - 1)).toNat 0)
          ≤ (resampleTo16k input R).getD i 0 ∧
        (resampleTo16k input R).getD i 0
          ≤ max (input.getD (⌊(i : ℚ) * (R / 16000)⌋).toNat 0)
              (input.getD (min (⌊(i : ℚ) * (R / 16000)⌋ + 1) ((input.length : ℤ) - 1)).toNat 0)) := by
  constructor
  · rw [resampleTo16k, if_pos rfl]
  · intro h
    constructor
    · rw [resampleTo16k_length input R h]
      have hnn : (0 : ℤ) ≤ jsRound ((input.length : ℚ) * 16000 / R) := by
        unfold jsRound
        have hq : (0 : ℚ) ≤ (input.length : ℚ) * 16000 / R := by positivity
        have := Int.floor_nonneg.mpr (by linarith : (0 : ℚ) ≤ (input.length : ℚ) * 16000 / R + 1 / 2)
        exact this
      exact Int.toNat_of_nonneg hnn
    · intro i hi
      have hlen : i < (List.range ((jsRound ((input.length : ℚ) / (R / 16000))).toNat)).length := by
        rw [List.length_range]
        rw [resampleTo16k, if_neg h, List.length_map, List.length_range] at hi
        exact hi
      have hval : (resampleTo16k input R).getD i 0 =
          (let sourceIndex : ℚ := (i : ℚ) * (R / 16000)
           let index0 : ℤ := ⌊sourceIndex⌋
           let index1 : ℤ := min (index0 + 1) ((input.length : ℤ) - 1)
           let weight : ℚ := sourceIndex - (index0 : ℚ)
           input.getD index0.toNat 0 * (1 - weight) + input.getD index1.toNat 0 * weight) := by
        rw [resampleTo16k, if_neg h]
        rw [List.getD_eq_getElem _ _ (by simpa using hlen)]
        rw [List.getElem_map, List.getElem_range]
      rw [hval]
      have h0 : (0 : ℚ) ≤ (i : ℚ) * (R / 16000) - (⌊(i : ℚ) * (R / 16000)⌋ : ℚ) :=
        sub_nonneg.mpr (Int.floor_le _)
      have h1 : (i : ℚ) * (R / 16000) - (⌊(i : ℚ) * (R / 16000)⌋ : ℚ) ≤ 1 := by
        have := Int.lt_floor_add_one ((i : ℚ) * (R / 16000))
        linarith
      exact interp_between _ _ _ h0 h1

/-- Witness for C8: instantiation at the concrete buffer [0, 1] and rate
48000 Hz, discharging the positivity hypothesis. -/
theorem C8_resample_witness :
    (0 : ℚ) < 48000 ∧
    resampleTo16k ([0, 1] : List ℚ) 16000 = [0, 1] ∧
    ((resampleTo16k ([0, 1] : List ℚ) 48000).length : ℤ) =
      jsRound ((([0, 1] : List ℚ).length : ℚ) * 16000 / 48000) := by
  refine ⟨by norm_num, (C8_resample_identity_length_interp [0, 1] 48000 (by norm_num)).1, ?_⟩
  exact ((C8_resample_identity_length_interp [0, 1] 48000 (by norm_num)).2
    (by norm_num)).1

end AudioUtils

/-- Whitespace for the purposes of JavaScript's `String.prototype.trim`
(restricted to the characters that occur in this development). -/
def isJsSpace (c : Char) : Bool :=
  c = ' ' || c = '\n' || c = '\t' || c = '\r'

/-- JavaScript `text.trim()`: strip leading and trailing whitespace. -/
def jsTrim (s : String) : String :=
  String.mk (((s.toList.dropWhile isJsSpace).reverse.dropWhile isJsSpace).reverse)

namespace TTS

/-- Segment priority (`'normal' | 'high'`, TTSService.ts line 22). -/
inductive Priority where
  | normal
  | high
deriving DecidableEq

/-- Segment status (`'pending' | 'generating' | 'ready' | 'playing' | 'done' |
'error'`, TTSService.ts line 25). -/
inductive SegStatus where
  | pending
  | generating
  | ready
  | playing
  | done
  | error
deriving DecidableEq

/-- An `AudioSegment` (TTSService.ts lines 19-27).  `id` models
`crypto.randomUUID()` by a counter; `createdAt` is ghost data recording the
creation instant (the source keeps only `timestamp`, which `queueText`
refreshes when it coalesces). -/
structure AudioSegment where
  id : ℕ
  text : String
  priority : Priority
  createdAt : ℕ
  timestamp : ℕ
  status : SegStatus
deriving DecidableEq

/-- The queue-relevant state of `TTSService` (TTSService.ts lines 43-81):
`maxQueueSize` defaults to 5 and `coalesceWindowMs` to 500. -/
structure TTSState where
  queue : List AudioSegment
  maxQueueSize : ℕ
  coalesceWindowMs : ℕ
  nextId : ℕ
deriving DecidableEq

/-- A freshly constructed `TTSService` with the default configuration. -/
def initTTS : TTSState := ⟨[], 5, 500, 0⟩

/-- The new-segment path of `queueText` (TTSService.ts lines 121-134): create
a fresh pending segment, append it, and drop the oldest segment when the
queue exceeds `maxQueueSize`. -/
def pushSeg (s : TTSState) (text : String) (priority : Priority) (now : ℕ) : TTSState :=
  let q := s.queue ++
    [{ id := s.nextId, text := jsTrim text, priority := priority,
       createdAt := now, timestamp := now, status := SegStatus.pending : AudioSegment }]
  { s with queue := if s.maxQueueSize < q.length then q.tail else q,
           nextId := s.nextId + 1 }

/-- `TTSService.queueText` (TTSService.ts lines 101-142): ignore blank text;
coalesce into the last segment when it is pending and its `timestamp` is
within the coalescing window; otherwise append a new pending segment and drop
the oldest when the queue exceeds `maxQueueSize`. -/
def queueText (s : TTSState) (text : String) (priority : Priority) (now : ℕ) : TTSState :=
  if jsTrim text = "" then s
  else
    match s.queue.getLast? with
    | some last =>
      if last.status = SegStatus.pending ∧ now - last.timestamp < s.coalesceWindowMs then
        { s with queue := s.queue.dropLast ++
            [{ last with text := last.text ++ " " ++ jsTrim text, timestamp := now }] }
      else pushSeg s text priority now
    | none => pushSeg s text priority now

/-- State of the `processQueue` loop (TTSService.ts lines 147-218):
`prefetchActive`/`prefetchedId` model `prefetchPromise`/`prefetchedId`, and
`played` records the playback order. -/
structure ProcState where
  queue : List AudioSegment
  prefetchedId : Option ℕ
  prefetchActive : Bool
  played : List String
deriving DecidableEq

/-- `TTSService.getNextSegment` (TTSService.ts lines 223-239): ready and high
priority first, then any ready, then pending and high priority, then any
pending. -/
def getNextSegment (q : List AudioSegment) : Option AudioSegment :=
  match q.find? (fun s => decide (s.status = SegStatus.ready ∧ s.priority = Priority.high)) with
  | some s => some s
  | none =>
    match q.find? (fun s => decide (s.status = SegStatus.ready)) with
    | some s => some s
    | none =>
      match q.find? (fun s => decide (s.status = SegStatus.pending ∧ s.priority = Priority.high)) with
      | some s => some s
      | none => q.find? (fun s => decide (s.status = SegStatus.pending))

/-- `TTSService.peekNextSegment` (TTSService.ts lines 244-246). -/
def peekNextSegment (q : List AudioSegment) : Option AudioSegment :=
  q.find? (fun s => decide (s.status = SegStatus.pending))

/-- Mutating the status of the segment with the given id (the source mutates
the shared segment object in place). -/
def setStatus (q : List AudioSegment) (i : ℕ) (st : SegStatus) : List AudioSegment :=
  q.map fun s => if s.id = i then { s with status := st } else s

/-- One iteration of the `while` body of `processQueue` (TTSService.ts lines
151-214) on a selected segment, with synthesis modelled as always succeeding:
mark generating, consume the prefetch if it matches, mark ready, prefetch the
first pending segment (marking it generating), play, mark done and remove. -/
def processIteration (st : ProcState) (seg : AudioSegment) : ProcState :=
  let q1 := setStatus st.queue seg.id SegStatus.generating
  let pf : Option ℕ × Bool :=
    if st.prefetchActive ∧ st.prefetchedId = some seg.id then (none, false)
    else (st.prefetchedId, st.prefetchActive)
  let q2 := setStatus q1 seg.id SegStatus.ready
  let res : List AudioSegment × Option ℕ × Bool :=
    match peekNextSegment q2 with
    | some ns => (setStatus q2 ns.id SegStatus.generating, some ns.id, true)
    | none => (q2, pf.1, pf.2)
  let q4 := setStatus (setStatus res.1 seg.id SegStatus.playing) seg.id SegStatus.done
  { queue := q4.eraseP (fun s => decide (s.id = seg.id)),
    prefetchedId := res.2.1, prefetchActive := res.2.2,
    played := st.played ++ [seg.text] }

/-- The `processQueue` loop (TTSService.ts lines 147-218) with fuel: exits
when the queue is empty; when `getNextSegment` returns nothing it waits and
retries (consuming fuel without progress). -/
def processRun : ℕ → ProcState → ProcState
  | 0, st => st
  | n + 1, st =>
    if st.queue = [] then st
    else
      match getNextSegment st.queue with
      | none => processRun n st
      | some seg => processRun n (processIteration st seg)

end TTS

namespace TTS

/-- The queue states of the C9 scenario: three fragments at 0ms, 400ms and
800ms, each within 500ms of the previous segment's (refreshed) timestamp. -/
def c9s1 : TTSState := queueText initTTS "a" Priority.normal 0

def c9s2 : TTSState := queueText c9s1 "b" Priority.normal 400

def c9s3 : TTSState := queueText c9s2 "c" Priority.normal 800

/-- C9, counterexample: after coalescing "b" at 400ms into the segment created
at 0ms, the fragment "c" arriving at 800ms is still coalesced (the code
compares against the refreshed `timestamp` 400, not the creation instant 0),
even though the last segment was created 800ms ≥ 500ms ago — where the claim,
reading "created within the coalescing window", requires a new segment to be
appended. -/
theorem C9_counterexample_refreshed_timestamp :
    c9s3.queue.map (fun sg => (sg.text, sg.createdAt, sg.timestamp, sg.status)) =
      [("a b c", 0, 800, SegStatus.pending)] ∧
    c9s3.queue.length = 1 ∧
    c9s1.queue.map (fun sg => sg.createdAt) = [0] ∧
    ¬(800 - 0 < initTTS.coalesceWindowMs) := by
  decide

/-- C9 (amended): for non-blank text, if the last queue element is `pending`
and its `timestamp` — set at creation and refreshed on each coalesce — is
within the coalescing window of `now`, `queueText` concatenates a space plus
the trimmed text onto that segment and appends no new segment; otherwise it
appends a fresh pending segment, dropping the oldest when the queue exceeds
its cap. -/
theorem C9_queueText_coalesce_or_append (s : TTSState) (text : String) (p : Priority) (now : ℕ)
    (h : jsTrim text ≠ "") :
    (∀ last, s.queue.getLast? = some last →
      last.status = SegStatus.pending → now - last.timestamp < s.coalesceWindowMs →
      (queueText s text p now).queue =
        s.queue.dropLast ++
          [{ last with text := last.text ++ " " ++ jsTrim text, timestamp := now }] ∧
      (queueText s text p now).queue.length = s.queue.length) ∧
    ((∀ last, s.queue.getLast? = some last →
        ¬(last.status = SegStatus.pending ∧ now - last.timestamp < s.coalesceWindowMs)) →
      (queueText s text p now).queue =
        (if s.maxQueueSize <
            (s.queue ++ [{ id := s.nextId, text := jsTrim text, priority := p, createdAt := now,
                           timestamp := now, status := SegStatus.pending : AudioSegment }]).length
         then (s.queue ++ [{ id := s.nextId, text := jsTrim text, priority := p, createdAt := now,
                             timestamp := now, status := SegStatus.pending : AudioSegment }]).tail
         else s.queue ++ [{ id := s.nextId, text := jsTrim text, priority := p, createdAt := now,
                            timestamp := now, status := SegStatus.pending : AudioSegment }])) := by
  constructor
  · intro last hlast hp hw
    have hne : s.queue ≠ [] := by
      intro e
      rw [e] at hlast
      simp at hlast
    rw [queueText, if_neg h, hlast]
    dsimp only
    rw [if_pos ⟨hp, hw⟩]
    refine ⟨rfl, ?_⟩
    have hpos : 0 < s.queue.length := List.length_pos.mpr hne
    simp [List.length_dropLast]
    omega
  · intro hno
    cases hq : s.queue.getLast? with
    | none =>
      rw [queueText, if_neg h, hq]
      dsimp only
      rw [pushSeg]
    | some last =>
      rw [queueText, if_neg h, hq]
      dsimp only
      rw [if_neg (hno last hq), pushSeg]

/-- Witness for C9's amended theorem: coalescing "b" at 400ms into the
pending segment created at 0ms. -/
theorem C9_queueText_witness :
    jsTrim "b" ≠ "" ∧
    (queueText c9s1 "b" Priority.normal 400).queue =
      [{ id := 0, text := "a b", priority := Priority.normal, createdAt := 0,
         timestamp := 400, status := SegStatus.pending }] :=
  ⟨by decide, by
    have h := ((C9_queueText_coalesce_or_append c9s1 "b" Priority.normal 400 (by decide)).1
      { id := 0, text := "a", priority := Priority.normal, createdAt := 0, timestamp := 0,
        status := SegStatus.pending } (by decide) (by decide) (by decide)).1
    rw [h]
    decide⟩

/-- C10: when `queueText` takes the coalescing path the priority argument has
no effect — the results for high and normal priority are identical, and the
merged segment keeps the earlier segment's id and priority. -/
theorem C10_coalesce_ignores_priority (s : TTSState) (text : String) (now : ℕ)
    (last : AudioSegment) (h : jsTrim text ≠ "") (hlast : s.queue.getLast? = some last)
    (hp : last.status = SegStatus.pending) (hw : now - last.timestamp < s.coalesceWindowMs) :
    queueText s text Priority.high now = queueText s text Priority.normal now ∧
    ∀ p, (queueText s text p now).queue.getLast?.map (fun sg => (sg.id, sg.priority)) =
      some (last.id, last.priority) := by
  constructor
  · rw [queueText, if_neg h, hlast]
    dsimp only
    rw [if_pos ⟨hp, hw⟩, queueText, if_neg h, hlast]
    dsimp only
    rw [if_pos ⟨hp, hw⟩]
  · intro p
    rw [queueText, if_neg h, hlast]
    dsimp only
    rw [if_pos ⟨hp, hw⟩]
    simp

/-- Witness for C10: a high-priority fragment "b" coalescing into the
normal-priority pending segment of `c9s1` keeps id 0 and normal priority. -/
theorem C10_coalesce_witness :
    jsTrim "b" ≠ "" ∧
    queueText c9s1 "b" Priority.high 400 = queueText c9s1 "b" Priority.normal 400 ∧
    (queueText c9s1 "b" Priority.high 400).queue.getLast?.map
      (fun sg => (sg.id, sg.priority)) = some (0, Priority.normal) :=
  ⟨by decide, by
    have h := C10_coalesce_ignores_priority c9s1 "b" 400
      { id := 0, text := "a", priority := Priority.normal, createdAt := 0, timestamp := 0,
        status := SegStatus.pending } (by decide) (by decide) (by decide) (by decide)
    exact ⟨h.1, h.2 Priority.high⟩⟩

/-- The queue built by the C5 scenario: "A" (normal) at 0ms, "B" (high) at
1000ms, "C" (normal) at 2000ms — spaced beyond the 500ms coalescing window, so
three distinct pending segments. -/
def c5init : ProcState :=
  ⟨(queueText (queueText (queueText initTTS "A" Priority.normal 0) "B" Priority.high 1000)
      "C" Priority.normal 2000).queue, none, false, []⟩

/-- The state the processing loop reaches on the C5 scenario. -/
def c5final : ProcState := processRun 5 c5init

lemma processRun_stuck (n : ℕ) (st : ProcState) (hne : st.queue ≠ [])
    (hnone : getNextSegment st.queue = none) : processRun n st = st := by
  induction n with
  | zero => rfl
  | succ n ih =>
    rw [processRun, if_neg hne, hnone]
    exact ih

/-- C5: the claim says queuing [normal:"A", high:"B", normal:"C"] (none
coalesced) yields playback order B, A, C.  The code instead plays B and then
C: after B is generated, the prefetcher marks the first pending segment A as
'generating', and `getNextSegment` only ever selects 'ready' or 'pending'
segments, so A is never selected again — the loop ends with A stuck in
'generating' and spins forever (no further fuel changes the state). -/
theorem C5_tts_priority_prefetch_starves :
    c5final.played = ["B", "C"] ∧
    c5final.queue.map (fun sg => (sg.text, sg.priority, sg.status)) =
      [("A", Priority.normal, SegStatus.generating)] ∧
    ∀ n, processRun n c5final = c5final := by
  refine ⟨by decide, by decide, ?_⟩
  intro n
  exact processRun_stuck n c5final (by decide) (by decide)

end TTS

namespace LiveService

/-- `ConnectionState` (src/types.ts lines 8-13). -/
inductive ConnectionState where
  | DISCONNECTED
  | CONNECTING
  | CONNECTED
  | ERROR
deriving DecidableEq

/-- `LanguageConfig` (src/types.ts lines 20-23). -/
structure LanguageConfig where
  sourceLanguage : String
  targetLanguage : String
deriving DecidableEq

/-- `SUPPORTED_LANGUAGES` (src/types.ts lines 26-45). -/
def SUPPORTED_LANGUAGES : List (String × String) :=
  [("auto", "Auto Detect"), ("en", "English"), ("vi", "Vietnamese"), ("es", "Spanish"),
   ("fr", "French"), ("de", "German"), ("zh", "Chinese"), ("ja", "Japanese"),
   ("ko", "Korean"), ("pt", "Portuguese"), ("ru", "Russian"), ("ar", "Arabic"),
   ("hi", "Hindi"), ("it", "Italian"), ("nl", "Dutch"), ("pl", "Polish"),
   ("th", "Thai"), ("tr", "Turkish")]

/-- Lookup `SUPPORTED_LANGUAGES[code]`. -/
def langName (code : String) : Option String :=
  (SUPPORTED_LANGUAGES.find? (fun p => decide (p.1 = code))).map (fun p => p.2)

/-- `LiveTranslationService.generateSystemInstruction` (src/unnamed/part_005
lines 106-164): the instruction text is a pure function of the language
configuration, with three branches (same language: transcription; auto
source: auto-detect translation; specific source: directed translation). -/
def generateSystemInstruction (cfg : LanguageConfig) : String :=
  let sourceName :=
    if cfg.sourceLanguage = "auto" then "any language"
    else (langName cfg.sourceLanguage).getD cfg.sourceLanguage
  let targetName := (langName cfg.targetLanguage).getD cfg.targetLanguage
  if cfg.sourceLanguage = cfg.targetLanguage then
    "You are a professional transcriptionist for live captioning.\n\nYOUR ONLY JOB: Listen to speech and output accurate text transcription.\n\nRULES:\n1. Transcribe speech accurately and immediately\n2. Output ONLY the transcribed text - no labels or explanations\n3. Do NOT summarize - transcribe every word accurately\n4. If you hear silence, output nothing\n5. Stream the transcription as you hear it - do not wait\n\nYou are a real-time transcriptionist. Output text only."
  else if cfg.sourceLanguage = "auto" then
    "You are a professional interpreter for live conference captioning.\n\nYOUR ONLY JOB: Listen to speech in any language and translate it to " ++ targetName ++ ".\n\nRULES:\n1. Detect the spoken language automatically\n2. Translate to " ++ targetName ++ " immediately\n3. Output ONLY the " ++ targetName ++ " translation - never output the source text\n4. Do NOT add any labels like \"Translation:\" or explanations\n5. Do NOT summarize - translate every word accurately\n6. If you hear silence, output nothing\n7. Stream the translation as you hear it - do not wait\n\nYou are a real-time translator. Output " ++ targetName ++ " text only."
  else
    "You are a professional interpreter for live conference captioning.\n\nYOUR ONLY JOB: Listen to " ++ sourceName ++ " speech and output the " ++ targetName ++ " translation.\n\nRULES:\n1. When you hear " ++ sourceName ++ ", translate it to " ++ targetName ++ " immediately\n2. Output ONLY the " ++ targetName ++ " translation - never output " ++ sourceName ++ " text\n3. Do NOT add any labels like \"Translation:\" or explanations\n4. Do NOT summarize - translate every word accurately\n5. If you hear silence, output nothing\n6. Stream the translation as you hear it - do not wait\n\nYou are a real-time " ++ sourceName ++ " to " ++ targetName ++ " translator. Output " ++ targetName ++ " text only."

/-- A live session handle; the backend binds the system instruction at
connect time (src/unnamed/part_005 lines 267-281). -/
structure SessionRec where
  systemInstruction : String
deriving DecidableEq

/-- Audio source selection (src/unnamed/part_005 line 9). -/
inductive AudioSourceKind where
  | microphone
  | system
deriving DecidableEq

/-- A PCM chunk: the Int16 samples of one capture buffer. -/
def Chunk : Type := List ℤ

/-- The fields of `LiveTranslationService` (src/unnamed/part_005 lines
26-52).  A media stream is the list of its track ids; worklet node, source
node, processor and audio context are presence-only handles. -/
structure LiveState where
  modelName : String
  inputSampleRate : ℚ
  mediaStream : Option (List ℕ)
  audioWorkletNode : Option Unit
  source : Option Unit
  processor : Option Unit
  session : Option SessionRec
  active : Bool
  audioStreamingStarted : Bool
  audioSource : AudioSourceKind
  languageConfig : LanguageConfig
  useAudioWorklet : Bool
  inputAudioContext : Option Unit
  audioBuffer : List Chunk
  sessionReady : Bool
  maxBufferSize : ℕ
  currentTranscription : String

/-- Externally observable callbacks and resource releases during service
operations. -/
inductive SvcEvent where
  | stateChange (st : ConnectionState)
  | volume (v : ℚ)
  | transcription (text : String) (isFinal : Bool)
  | workletStopped
  | sourceDisconnected
  | processorDisconnected
  | trackStopped (id : ℕ)
  | contextClosed
  | sessionClosed
deriving DecidableEq

/-- The event a guarded teardown step (`if (this.x) { ...; this.x = null; }`)
emits: one event when the handle is present, none otherwise. -/
def optEvents {α : Type} (o : Option α) (e : SvcEvent) : List SvcEvent :=
  match o with
  | some _ => [e]
  | none => []

/-- The track ids of the media stream the service currently holds. -/
def tracksOf (s : LiveState) : List ℕ := s.mediaStream.getD []

/-- `LiveTranslationService.cleanup` (src/unnamed/part_005 lines 564-613):
disconnect the worklet, source and processor, stop every media-stream track,
close the audio context and the session, null all handles, clear the buffer
and transcription, and emit `onVolume(0)`.  Every risky call is wrapped in
try/catch in the source; the model is correspondingly total. -/
def cleanup (s : LiveState) : LiveState × List SvcEvent :=
  let evs :=
    optEvents s.audioWorkletNode SvcEvent.workletStopped ++
    optEvents s.source SvcEvent.sourceDisconnected ++
    optEvents s.processor SvcEvent.processorDisconnected ++
    (tracksOf s).map SvcEvent.trackStopped ++
    optEvents s.inputAudioContext SvcEvent.contextClosed ++
    optEvents s.session SvcEvent.sessionClosed ++
    [SvcEvent.volume 0]
  ({ s with active := false, audioStreamingStarted := false, sessionReady := false,
            audioBuffer := [], audioWorkletNode := none, source := none, processor := none,
            mediaStream := none, inputAudioContext := none, session := none,
            currentTranscription := "" }, evs)

/-- `LiveTranslationService.stop` (src/unnamed/part_005 lines 615-621):
`cleanup()` followed by `onStateChange(DISCONNECTED)`. -/
def stop (s : LiveState) : LiveState × List SvcEvent :=
  let r := cleanup s
  (r.1, r.2 ++ [SvcEvent.stateChange ConnectionState.DISCONNECTED])

/-- `LiveTranslationService.setLanguageConfig` (src/unnamed/part_005 lines
94-97): store the new configuration; nothing else changes. -/
def setLanguageConfig (s : LiveState) (cfg : LanguageConfig) : LiveState :=
  { s with languageConfig := cfg }

/-- The connect step of `LiveTranslationService.start` (src/unnamed/part_005
lines 267-281): the session is created with the system instruction generated
from the language configuration read at that moment. -/
def connectSession (s : LiveState) : LiveState :=
  { s with active := true,
           session := some ⟨generateSystemInstruction s.languageConfig⟩ }

/-- `maxBufferSize` (src/unnamed/part_005 line 46): at most 10 chunks are
buffered before the session is ready. -/
def maxBufferSize : ℕ := 10

/-- The audio-buffering step shared by the worklet and ScriptProcessor
capture paths (src/unnamed/part_005 lines 431-436 and 489-497): push the
chunk, and when the buffer exceeds the capacity drop the oldest. -/
def pushChunk (maxB : ℕ) (buf : List Chunk) (c : Chunk) : List Chunk :=
  if maxB < (buf ++ [c]).length then (buf ++ [c]).tail else buf ++ [c]

/-- `LiveTranslationService.flushAudioBuffer` (src/unnamed/part_005 lines
339-348): a no-op unless a session exists, is ready and the buffer is
non-empty; otherwise every buffered chunk is sent in order and the buffer is
cleared.  Returns (chunks sent, new buffer). -/
def flushAudioBuffer (hasSession sessionReady : Bool) (buf : List Chunk) :
    List Chunk × List Chunk :=
  if hasSession && sessionReady && !buf.isEmpty then (buf, []) else ([], buf)

/-- One content part of a server message (`parts[].text`). -/
structure Part where
  text : Option String
deriving DecidableEq

/-- The fields of an incoming Gemini Live message that `handleMessage` reads
(src/unnamed/part_005 lines 521-562). -/
structure ServerMessage where
  text : Option String
  modelTurnParts : Option (List Part)
  outputTranscription : Option String
  turnComplete : Bool
  interrupted : Bool
deriving DecidableEq

/-- JavaScript truthiness of an optional string: present and non-empty. -/
def strTruthy (o : Option String) : Option String :=
  match o with
  | some t => if t = "" then none else some t
  | none => none

/-- `parts.filter(p => p.text).map(p => p.text).join('')`
(src/unnamed/part_005 lines 531-534). -/
def partsText (parts : List Part) : String :=
  String.join (parts.filterMap (fun p => strTruthy p.text))

/-- `LiveTranslationService.handleMessage` (src/unnamed/part_005 lines
521-562): each text-bearing field REPLACES `currentTranscription` and emits a
non-final update; `turnComplete` emits one final update and clears the buffer
unless it is blank; `interrupted` clears the buffer.  Returns the new
`currentTranscription` and the `onTranscription` calls in order. -/
def handleMessage (cur : String) (m : ServerMessage) : String × List (String × Bool) :=
  let s1 :=
    match strTruthy m.text with
    | some t => (t, [((t : String), false)])
    | none => (cur, ([] : List (String × Bool)))
  let s2 :=
    match m.modelTurnParts with
    | some parts =>
      let pt := partsText parts
      if pt = "" then s1 else (pt, s1.2 ++ [(pt, false)])
    | none => s1
  let s3 :=
    match strTruthy m.outputTranscription with
    | some t => (t, s2.2 ++ [(t, false)])
    | none => s2
  let s4 :=
    if m.turnComplete then
      if jsTrim s3.1 = "" then s3 else ("", s3.2 ++ [(s3.1, true)])
    else s3
  (if m.interrupted then "" else s4.1, s4.2)

/-- A sequence of `handleMessage` calls, accumulating the emitted
`onTranscription` updates. -/
def handleMessages : String → List ServerMessage → String × List (String × Bool)
  | cur, [] => (cur, [])
  | cur, m :: ms =>
    let r1 := handleMessage cur m
    let r2 := handleMessages r1.1 ms
    (r2.1, r1.2 ++ r2.2)

/-- The text a message carries, as `handleMessage` would leave it in
`currentTranscription`: `outputTranscription` wins over `modelTurn` parts,
which win over the top-level `text`. -/
def effText (m : ServerMessage) : Option String :=
  match strTruthy m.outputTranscription with
  | some t => some t
  | none =>
    match m.modelTurnParts with
    | some parts => if partsText parts = "" then strTruthy m.text else some (partsText parts)
    | none => strTruthy m.text

/-- C1: from any service state, `stop()` (a total function, as every risky
call in `cleanup` is try/catch-wrapped) leaves every handle null, the buffer
and transcription cleared, emits a `trackStopped` for every media-stream
track, closes the audio context and session when they existed, invokes
`onVolume(0)`, ends with `onStateChange(DISCONNECTED)`, and a second `stop()`
leaves the state unchanged. -/
theorem C1_stop_idempotent_and_releasing (s : LiveState) :
    (stop s).1.active = false ∧
    (stop s).1.mediaStream = none ∧
    (stop s).1.audioWorkletNode = none ∧
    (stop s).1.source = none ∧
    (stop s).1.processor = none ∧
    (stop s).1.inputAudioContext = none ∧
    (stop s).1.session = none ∧
    (stop s).1.sessionReady = false ∧
    (stop s).1.audioBuffer = [] ∧
    (stop s).1.currentTranscription = "" ∧
    (∀ tid ∈ tracksOf s, SvcEvent.trackStopped tid ∈ (stop s).2) ∧
    (s.inputAudioContext.isSome = true → SvcEvent.contextClosed ∈ (stop s).2) ∧
    (s.session.isSome = true → SvcEvent.sessionClosed ∈ (stop s).2) ∧
    SvcEvent.volume 0 ∈ (stop s).2 ∧
    (stop s).2.getLast? = some (SvcEvent.stateChange ConnectionState.DISCONNECTED) ∧
    (stop (stop s).1).1 = (stop s).1 := by
  refine ⟨rfl, rfl, rfl, rfl, rfl, rfl, rfl, rfl, rfl, rfl, ?_, ?_, ?_, ?_, ?_, ?_⟩
  · intro tid htid
    have hmem : SvcEvent.trackStopped tid ∈ (tracksOf s).map SvcEvent.trackStopped :=
      List.mem_map_of_mem _ htid
    simp only [stop, cleanup, List.mem_append]
    tauto
  · intro hctx
    obtain ⟨u, hu⟩ := Option.isSome_iff_exists.mp hctx
    have hmem : SvcEvent.contextClosed ∈ optEvents s.inputAudioContext SvcEvent.contextClosed := by
      rw [hu]
      simp [optEvents]
    simp only [stop, cleanup, List.mem_append]
    tauto
  · intro hses
    obtain ⟨u, hu⟩ := Option.isSome_iff_exists.mp hses
    have hmem : SvcEvent.sessionClosed ∈ optEvents s.session SvcEvent.sessionClosed := by
      rw [hu]
      simp [optEvents]
    simp only [stop, cleanup, List.mem_append]
    tauto
  · have hmem : SvcEvent.volume 0 ∈ ([SvcEvent.volume 0] : List SvcEvent) := by simp
    simp only [stop, cleanup, List.mem_append]
    tauto
  · have h : (stop s).2 =
        (cleanup s).2 ++ [SvcEvent.stateChange ConnectionState.DISCONNECTED] := rfl
    rw [h]
    exact List.getLast?_concat _
  · rfl

/-- Witness for C1: a fully connected state (two live tracks, open context
and session) is released, and the released state is a fixed point of stop. -/
theorem C1_stop_witness :
    ((stop
        { modelName := "gemini-live-2.5-flash-preview", inputSampleRate := 16000,
          mediaStream := some [1, 2], audioWorkletNode := some (), source := some (),
          processor := none, session := some ⟨"instr"⟩, active := true,
          audioStreamingStarted := true, audioSource := AudioSourceKind.microphone,
          languageConfig := ⟨"vi", "en"⟩, useAudioWorklet := true,
          inputAudioContext := some (), audioBuffer := [], sessionReady := true,
          maxBufferSize := 10, currentTranscription := "hello" }).2 =
      [SvcEvent.workletStopped, SvcEvent.sourceDisconnected, SvcEvent.trackStopped 1,
       SvcEvent.trackStopped 2, SvcEvent.contextClosed, SvcEvent.sessionClosed,
       SvcEvent.volume 0, SvcEvent.stateChange ConnectionState.DISCONNECTED]) ∧
    SvcEvent.trackStopped 1 ∈
      (stop
        { modelName := "gemini-live-2.5-flash-preview", inputSampleRate := 16000,
          mediaStream := some [1, 2], audioWorkletNode := some (), source := some (),
          processor := none, session := some ⟨"instr"⟩, active := true,
          audioStreamingStarted := true, audioSource := AudioSourceKind.microphone,
          languageConfig := ⟨"vi", "en"⟩, useAudioWorklet := true,
          inputAudioContext := some (), audioBuffer := [], sessionReady := true,
          maxBufferSize := 10, currentTranscription := "hello" }).2 :=
  ⟨rfl,
    (C1_stop_idempotent_and_releasing
      { modelName := "gemini-live-2.5-flash-preview", inputSampleRate := 16000,
        mediaStream := some [1, 2], audioWorkletNode := some (), source := some (),
        processor := none, session := some ⟨"instr"⟩, active := true,
        audioStreamingStarted := true, audioSource := AudioSourceKind.microphone,
        languageConfig := ⟨"vi", "en"⟩, useAudioWorklet := true,
        inputAudioContext := some (), audioBuffer := [], sessionReady := true,
        maxBufferSize := 10, currentTranscription := "hello" }).2.2.2.2.2.2.2.2.2.2.1
      1 (by simp [tracksOf])⟩

/-- C3: `setLanguageConfig` changes only the stored configuration (every
other field, in particular the live session with its bound instruction, is
unchanged); the instruction of a session is the one generated from the
configuration in effect at connect time; and only a full stop/reconnect makes
a new configuration take effect. -/
theorem C3_instruction_bound_at_connect (s : LiveState) (cfg cfg2 : LanguageConfig) :
    (setLanguageConfig s cfg).languageConfig = cfg ∧
    (setLanguageConfig s cfg).session = s.session ∧
    (setLanguageConfig s cfg).active = s.active ∧
    (setLanguageConfig s cfg).mediaStream = s.mediaStream ∧
    (setLanguageConfig s cfg).inputAudioContext = s.inputAudioContext ∧
    (setLanguageConfig s cfg).sessionReady = s.sessionReady ∧
    (setLanguageConfig s cfg).audioBuffer = s.audioBuffer ∧
    (setLanguageConfig s cfg).audioSource = s.audioSource ∧
    (setLanguageConfig s cfg).modelName = s.modelName ∧
    (setLanguageConfig s cfg).currentTranscription = s.currentTranscription ∧
    (setLanguageConfig s cfg).audioWorkletNode = s.audioWorkletNode ∧
    (setLanguageConfig s cfg).source = s.source ∧
    (setLanguageConfig s cfg).processor = s.processor ∧
    (setLanguageConfig s cfg).audioStreamingStarted = s.audioStreamingStarted ∧
    (setLanguageConfig s cfg).useAudioWorklet = s.useAudioWorklet ∧
    (setLanguageConfig s cfg).inputSampleRate = s.inputSampleRate ∧
    (setLanguageConfig s cfg).maxBufferSize = s.maxBufferSize ∧
    (connectSession s).session = some ⟨generateSystemInstruction s.languageConfig⟩ ∧
    (setLanguageConfig (connectSession s) cfg2).session =
      some ⟨generateSystemInstruction s.languageConfig⟩ ∧
    (connectSession (setLanguageConfig (stop (connectSession s)).1 cfg2)).session =
      some ⟨generateSystemInstruction cfg2⟩ :=
  ⟨rfl, rfl, rfl, rfl, rfl, rfl, rfl, rfl, rfl, rfl, rfl, rfl, rfl, rfl, rfl, rfl, rfl,
   rfl, rfl, rfl⟩

lemma foldl_pushChunk (m : ℕ) (cs : List Chunk) : ∀ buf : List Chunk, buf.length ≤ m →
    List.foldl (pushChunk m) buf cs = (buf ++ cs).drop (buf.length + cs.length - m) := by
  induction cs with
  | nil =>
    intro buf h
    simp [Nat.sub_eq_zero_of_le h]
  | cons c cs ih =>
    intro buf h
    rw [List.foldl_cons]
    by_cases hlt : m < (buf ++ [c]).length
    · have hbm : buf.length = m := by
        simp only [List.length_append, List.length_singleton] at hlt
        omega
      have hstep : pushChunk m buf c = (buf ++ [c]).tail := by
        rw [pushChunk, if_pos hlt]
      have hlen2 : ((buf ++ [c]).tail).length = m := by
        simp only [List.length_tail, List.length_append, List.length_singleton]
        omega
      rw [hstep, ih _ (le_of_eq hlen2), hlen2]
      have hidx : m + cs.length - m = cs.length := by omega
      have hidx2 : buf.length + (c :: cs).length - m = cs.length + 1 := by
        simp only [List.length_cons]
        omega
      rw [hidx, hidx2]
      have h1 : (buf ++ [c]).tail ++ cs = (buf ++ (c :: cs)).tail := by
        cases buf <;> simp
      rw [h1, ← List.drop_one, List.drop_drop, Nat.add_comm 1 cs.length]
    · have hstep : pushChunk m buf c = buf ++ [c] := by
        rw [pushChunk, if_neg hlt]
      have hlen : (buf ++ [c]).length ≤ m := not_lt.mp hlt
      rw [hstep, ih _ hlen]
      have hidx : (buf ++ [c]).length + cs.length - m = buf.length + (c :: cs).length - m := by
        simp only [List.length_append, List.length_singleton, List.length_cons,
          List.length_nil]
        omega
      rw [hidx, List.append_assoc, List.singleton_append]

/-- C6: buffering N chunks before the session opens keeps exactly the newest
`min N 10` of them in production order (each overflow dropping the oldest),
and the on-open flush (session present and ready) sends exactly the buffered
list, in FIFO order, and clears the buffer. -/
theorem C6_prebuffer_then_flush_fifo (chunks : List Chunk) :
    List.foldl (pushChunk maxBufferSize) [] chunks = chunks.drop (chunks.length - 10) ∧
    flushAudioBuffer true true (List.foldl (pushChunk maxBufferSize) [] chunks) =
      (chunks.drop (chunks.length - 10), []) := by
  have h := foldl_pushChunk maxBufferSize chunks [] (by simp)
  simp only [List.nil_append, List.length_nil, Nat.zero_add] at h
  have h2 : List.foldl (pushChunk maxBufferSize) [] chunks =
      chunks.drop (chunks.length - 10) := by
    rw [h]
    exact rfl
  refine ⟨h2, ?_⟩
  rw [h2, flushAudioBuffer]
  by_cases he : (chunks.drop (chunks.length - 10)) = []
  · rw [he]
    simp
  · simp [he]

/-- The non-final updates a single message causes `handleMessage` to emit,
in order: one per truthy text-bearing field. -/
def msgUpdates (m : ServerMessage) : List (String × Bool) :=
  (match strTruthy m.text with
   | some u => [(u, false)]
   | none => []) ++
  (match m.modelTurnParts with
   | some ps => if partsText ps = "" then [] else [(partsText ps, false)]
   | none => []) ++
  (match strTruthy m.outputTranscription with
   | some u => [(u, false)]
   | none => [])

lemma handleMessage_no_turn (m : ServerMessage) (hT : m.turnComplete = false)
    (hI : m.interrupted = false) (cur : String) :
    handleMessage cur m = ((effText m).getD cur, msgUpdates m) := by
  rw [handleMessage, msgUpdates]
  rcases hot : m.outputTranscription with _ | t3 <;>
    rcases hparts : m.modelTurnParts with _ | ps <;>
    rcases htext : m.text with _ | t1 <;>
    simp_all [effText, strTruthy] <;>
    split_ifs <;>
    simp_all

lemma msgUpdates_false (m : ServerMessage) : ∀ e ∈ msgUpdates m, e.2 = false := by
  intro e he
  rw [msgUpdates] at he
  rcases hot : strTruthy m.outputTranscription with _ | u3 <;>
    rcases hparts : m.modelTurnParts with _ | ps <;>
    rcases htext : strTruthy m.text with _ | u1 <;>
    simp_all <;>
    aesop

lemma msgUpdates_getLast (m : ServerMessage) (t : String) (ht : effText m = some t) :
    (msgUpdates m).getLast? = some (t, false) := by
  rw [msgUpdates]
  rw [effText] at ht
  rcases hot : strTruthy m.outputTranscription with _ | u3 <;>
    rcases hparts : m.modelTurnParts with _ | ps <;>
    rcases htext : strTruthy m.text with _ | u1 <;>
    simp_all <;>
    split_ifs at ht ⊢ <;>
    simp_all [List.getLast?_concat]

/-- C2: over any non-empty run of messages that each carry a truthy
text-bearing field (and neither complete a turn nor interrupt), the
reconciler's buffer ends exactly equal to the last message's carried text,
the last emitted update is that text with isFinal = false, every emitted
update is non-final, and the outcome is independent of whatever the buffer
held before — replacement, never concatenation. -/
theorem C2_replace_not_append (cur : String) (ms : List ServerMessage)
    (mlast : ServerMessage) (t : String)
    (hall : ∀ m ∈ ms, m.turnComplete = false ∧ m.interrupted = false ∧ (effText m).isSome)
    (hlast : ms.getLast? = some mlast) (ht : effText mlast = some t) :
    (handleMessages cur ms).1 = t ∧
    (handleMessages cur ms).2.getLast? = some (t, false) ∧
    (∀ e ∈ (handleMessages cur ms).2, e.2 = false) ∧
    (∀ cur2, handleMessages cur2 ms = handleMessages cur ms) := by
  induction ms generalizing cur with
  | nil => simp at hlast
  | cons m ms ih =>
    obtain ⟨hT, hI, hsome⟩ := hall m (by simp)
    obtain ⟨tm, htm⟩ := Option.isSome_iff_exists.mp hsome
    cases ms with
    | nil =>
      have hm : mlast = m := by
        simp only [List.getLast?_singleton, Option.some_inj] at hlast
        exact hlast.symm
      have htm2 : effText m = some t := by
        rw [hm] at ht
        exact ht
      have hms : ∀ c : String,
          handleMessages c [m] = ((handleMessage c m).1, (handleMessage c m).2 ++ []) :=
        fun c => rfl
      rw [hms, handleMessage_no_turn m hT hI cur, htm2]
      refine ⟨rfl, ?_, ?_, ?_⟩
      · simp [msgUpdates_getLast m t htm2]
      · intro e he
        simp only [List.append_nil] at he
        exact msgUpdates_false m e he
      · intro cur2
        rw [hms cur2, handleMessage_no_turn m hT hI cur2, htm2]
        rfl
    | cons m2 ms2 =>
      have hlast2 : (m2 :: ms2).getLast? = some mlast := by
        rw [← hlast, List.getLast?_cons_cons]
      have ih2 := ih (handleMessage cur m).1
        (fun x hx => hall x (by simp [hx])) hlast2
      rw [handleMessages]
      refine ⟨ih2.1, ?_, ?_, ?_⟩
      · rw [List.getLast?_append, ih2.2.1]
        rfl
      · intro e he
        rcases List.mem_append.mp he with h1 | h2
        · rw [handleMessage_no_turn m hT hI cur] at h1
          exact msgUpdates_false m e h1
        · exact ih2.2.2.1 e h2
      · intro cur2
        rw [handleMessages]
        have hfst : handleMessage cur2 m = handleMessage cur m := by
          rw [handleMessage_no_turn m hT hI cur2, handleMessage_no_turn m hT hI cur, htm]
          rfl
        rw [hfst]

/-- Witness for C2: two messages ("Hello" via the text field, then "Bonjour"
via outputTranscription) processed from the buffer "prior": the final buffer
and last update are exactly "Bonjour". -/
theorem C2_replace_witness :
    (handleMessages "prior"
      [⟨some "Hello", none, none, false, false⟩,
       ⟨none, none, some "Bonjour", false, false⟩]).1 = "Bonjour" ∧
    (handleMessages "prior"
      [⟨some "Hello", none, none, false, false⟩,
       ⟨none, none, some "Bonjour", false, false⟩]).2.getLast? = some ("Bonjour", false) :=
  ⟨(C2_replace_not_append "prior"
      [⟨some "Hello", none, none, false, false⟩, ⟨none, none, some "Bonjour", false, false⟩]
      ⟨none, none, some "Bonjour", false, false⟩ "Bonjour"
      (by decide) (by decide) (by decide)).1,
   (C2_replace_not_append "prior"
      [⟨some "Hello", none, none, false, false⟩, ⟨none, none, some "Bonjour", false, false⟩]
      ⟨none, none, some "Bonjour", false, false⟩ "Bonjour"
      (by decide) (by decide) (by decide)).2.1⟩

/-- C7: on the input run [update "Hello", update "Hello world", turnComplete]
the reconciler emits exactly the two non-final updates followed by exactly one
final caption "Hello world", leaving an empty buffer; and a turnComplete
arriving with a blank (empty or all-whitespace) buffer emits nothing. -/
theorem C7_finalize_then_reset :
    (handleMessages ""
      [⟨some "Hello", none, none, false, false⟩,
       ⟨some "Hello world", none, none, false, false⟩,
       ⟨none, none, none, true, false⟩]).2 =
      [("Hello", false), ("Hello world", false), ("Hello world", true)] ∧
    (handleMessages ""
      [⟨some "Hello", none, none, false, false⟩,
       ⟨some "Hello world", none, none, false, false⟩,
       ⟨none, none, none, true, false⟩]).1 = "" ∧
    ((handleMessages ""
      [⟨some "Hello", none, none, false, false⟩,
       ⟨some "Hello world", none, none, false, false⟩,
       ⟨none, none, none, true, false⟩]).2.filter (fun e => e.2)).length = 1 ∧
    (∀ cur m, m.text = none → m.modelTurnParts = none → m.outputTranscription = none →
      m.turnComplete = true → jsTrim cur = "" → (handleMessage cur m).2 = []) := by
  refine ⟨by decide, by decide, by decide, ?_⟩
  intro cur m h1 h2 h3 h4 h5
  simp [handleMessage, strTruthy, h1, h2, h3, h4, h5]

/-- Witness for C7: a whitespace-only buffer and a pure turnComplete message
emit no caption at all. -/
theorem C7_blank_turn_witness :
    jsTrim "  " = "" ∧
    (handleMessage "  " ⟨none, none, none, true, false⟩).2 = [] :=
  ⟨by decide,
   C7_finalize_then_reset.2.2.2 "  " ⟨none, none, none, true, false⟩ rfl rfl rfl rfl
     (by decide)⟩

end LiveService

